import Mathlib

/-!
Shallow embedding of the `ruranges` Python boundary layer
(`src/ruranges/__init__.py`) together with spec-modelled interval kernels.

NumPy integer/float dtypes are modelled by an inductive `Dtype` with exact
`iinfo`/`finfo` bounds as integers; an ndarray is a dtype tag plus a list of
integer values.  Python exceptions are modelled by `Except PyErr`.
-/

namespace Ruranges

/-- NumPy dtypes used by the library: signed/unsigned integers, floats, and a
catch-all for non-numeric kinds. -/
inductive Dtype where
  | i8 | i16 | i32 | i64
  | u8 | u16 | u32 | u64
  | f32 | f64
  | objectK
  deriving DecidableEq, Repr

/-- `dtype.kind == "i"` in NumPy (signed integer). -/
def Dtype.isSigned : Dtype → Bool
  | .i8 | .i16 | .i32 | .i64 => true
  | _ => false

/-- `dtype.kind == "u"` in NumPy (unsigned integer). -/
def Dtype.isUnsigned : Dtype → Bool
  | .u8 | .u16 | .u32 | .u64 => true
  | _ => false

/-- `dtype.kind == "f"` in NumPy (floating point). -/
def Dtype.isFloat : Dtype → Bool
  | .f32 | .f64 => true
  | _ => false

/-- `dtype.kind in {"i", "u"}`. -/
def Dtype.isInteger (d : Dtype) : Bool := d.isSigned || d.isUnsigned

/-- Bit width of a numeric dtype. -/
def Dtype.width : Dtype → Nat
  | .i8 | .u8 => 8
  | .i16 | .u16 => 16
  | .i32 | .u32 => 32
  | .i64 | .u64 => 64
  | .f32 => 32
  | .f64 => 64
  | .objectK => 0

/-- `np.iinfo(dt).min` / `np.finfo(dt).min` as an exact integer
(float bounds are the exactly representable extreme finite values). -/
def Dtype.dmin : Dtype → Int
  | .i8 => -128
  | .i16 => -32768
  | .i32 => -2147483648
  | .i64 => -9223372036854775808
  | .u8 | .u16 | .u32 | .u64 => 0
  | .f32 => -(2 ^ 128 - 2 ^ 104)
  | .f64 => -(2 ^ 1024 - 2 ^ 971)
  | .objectK => 0

/-- `np.iinfo(dt).max` / `np.finfo(dt).max` as an exact integer. -/
def Dtype.dmax : Dtype → Int
  | .i8 => 127
  | .i16 => 32767
  | .i32 => 2147483647
  | .i64 => 9223372036854775807
  | .u8 => 255
  | .u16 => 65535
  | .u32 => 4294967295
  | .u64 => 18446744073709551615
  | .f32 => 2 ^ 128 - 2 ^ 104
  | .f64 => 2 ^ 1024 - 2 ^ 971
  | .objectK => 0

/-- A NumPy ndarray: a dtype tag and its element values (as mathematical
integers; well-formed arrays keep every value inside the dtype's range). -/
structure NDArr where
  dtype : Dtype
  data : List Int
  deriving DecidableEq, Repr

/-- Every element of the array lies in the representable range of its dtype. -/
def NDArr.wf (a : NDArr) : Prop :=
  ∀ v ∈ a.data, a.dtype.dmin ≤ v ∧ v ≤ a.dtype.dmax

instance (a : NDArr) : Decidable a.wf := by
  unfold NDArr.wf; infer_instance

/-- Python exceptions raised by the boundary layer. -/
inductive PyErr where
  | valueError (msg : String)
  | typeError (msg : String)
  | attributeError (msg : String)
  | keyError (msg : String)
  deriving DecidableEq, Repr

/-- `arr.min()` for a non-empty list (0 as a junk value on empty, which the
source guards against separately: NumPy raises on empty reductions). -/
def arrMin : List Int → Int
  | [] => 0
  | x :: r => r.foldl min x

/-- `arr.max()` for a non-empty list (0 as a junk value on empty). -/
def arrMax : List Int → Int
  | [] => 0
  | x :: r => r.foldl max x

/-- `minimal_integer_dtype(arr)`: narrowest integer dtype holding `arr`,
preserving the signed/unsigned kind; empty arrays keep their dtype, non-integer
dtypes raise `TypeError`, values outside 64-bit raise `ValueError`. -/
def minimal_integer_dtype (arr : NDArr) : Except PyErr Dtype :=
  if arr.data.isEmpty then .ok arr.dtype
  else
    let lo := arrMin arr.data
    let hi := arrMax arr.data
    if arr.dtype.isUnsigned then
      match [Dtype.u8, Dtype.u16, Dtype.u32, Dtype.u64].find?
          (fun dt => hi ≤ dt.dmax) with
      | some dt => .ok dt
      | none => .error (.valueError "Values exceed 64-bit integer range")
    else if arr.dtype.isSigned then
      match [Dtype.i8, Dtype.i16, Dtype.i32, Dtype.i64].find?
          (fun dt => dt.dmin ≤ lo && hi ≤ dt.dmax) with
      | some dt => .ok dt
      | none => .error (.valueError "Values exceed 64-bit integer range")
    else .error (.typeError "Input must use an integer dtype")

/-- `np.result_type(a, b)` restricted to the integer/float dtypes the library
can produce: same-kind integers promote to the wider width; a mixed
signed/unsigned pair promotes to the smallest signed dtype containing both
(or `float64` when the unsigned side is 64-bit); `float64` absorbs. -/
def result_type2 (a b : Dtype) : Dtype :=
  if a = b then a
  else if a = .f64 || b = .f64 then .f64
  else if a.isSigned && b.isSigned then (if a.width ≥ b.width then a else b)
  else if a.isUnsigned && b.isUnsigned then (if a.width ≥ b.width then a else b)
  else
    -- mixed signed/unsigned
    let u := if a.isUnsigned then a else b
    let i := if a.isUnsigned then b else a
    if i.width > u.width then i
    else match u with
      | .u8 => .i16
      | .u16 => .i32
      | .u32 => .i64
      | _ => .f64

/-- `_common_integer_dtype(a, b)` for two arrays. -/
def common_integer_dtype2 (a b : NDArr) : Except PyErr Dtype := do
  let ma ← minimal_integer_dtype a
  let mb ← minimal_integer_dtype b
  let c := result_type2 ma mb
  if c.isInteger then pure c
  else .error (.typeError "No common *integer* dtype for these arrays")

/-- `_common_integer_dtype(a, b, c, d)` for four arrays. -/
def common_integer_dtype4 (a b c d : NDArr) : Except PyErr Dtype := do
  let ma ← minimal_integer_dtype a
  let mb ← minimal_integer_dtype b
  let mc ← minimal_integer_dtype c
  let md ← minimal_integer_dtype d
  let r := result_type2 (result_type2 (result_type2 ma mb) mc) md
  if r.isInteger then pure r
  else .error (.typeError "No common *integer* dtype for these arrays")

/-- `check_min_max_with_slack(starts, ends, slack, old_dtype)`: raises
`ValueError` when `min(starts) - slack` or `max(ends) + slack` leaves the
range of `old_dtype`; `TypeError` for dtype kinds other than `i`/`f`; NumPy
raises `ValueError` on an empty reduction before anything else. -/
def check_min_max_with_slack (starts ends : List Int) (slack : Int)
    (old_dtype : Dtype) : Except PyErr Unit :=
  if starts.isEmpty || ends.isEmpty then
    .error (.valueError "zero-size array to reduction operation minimum which has no identity")
  else
    let adjusted_min := arrMin starts - slack
    let adjusted_max := arrMax ends + slack
    if old_dtype.isSigned || old_dtype.isFloat then
      if adjusted_min < old_dtype.dmin then
        .error (.valueError "Adjusted min is below the minimum for dtype. Please use a smaller slack to avoid an out of bounds error.")
      else if adjusted_max > old_dtype.dmax then
        .error (.valueError "Adjusted max is above the maximum for dtype. Please use a smaller slack to avoid an out of bounds error.")
      else .ok ()
    else .error (.typeError "Range check not implemented for dtype.")

/-- `check_array_lengths(starts, ends, groups)`: the common length, or
`ValueError` on a mismatch. -/
def check_array_lengths (starts ends : NDArr) (groups : Option NDArr) :
    Except PyErr Nat :=
  let n := starts.data.length
  if ends.data.length ≠ n then
    .error (.valueError "`starts` and `ends` must have the same length.")
  else
    match groups with
    | some g =>
        if g.data.length ≠ n then
          .error (.valueError "`groups` must have the same length as `starts` and `ends`.")
        else .ok n
    | none => .ok n

/-- `validate_groups(length, groups)`: default is `np.zeros(length,
dtype=np.int32)` — a signed int32 array. -/
def validate_groups (length : Nat) (groups : Option NDArr) :
    Except PyErr NDArr :=
  match groups with
  | none => .ok ⟨.i32, List.replicate length 0⟩
  | some g =>
      if g.data.length ≠ length then
        .error (.valueError "`groups` must have the same length as specified by `length`.")
      else .ok g

/-- `_SUFFIX_TABLE`: keyed by (group dtype, range dtype); all keys have an
unsigned group dtype and a signed range dtype. -/
def suffixTable (g p : Dtype) : Option (String × Dtype × Dtype) :=
  match g, p with
  | .u8, .i8 => some ("u8_i16", .u8, .i16)
  | .u8, .i16 => some ("u8_i16", .u8, .i16)
  | .u8, .i32 => some ("u8_i32", .u8, .i32)
  | .u8, .i64 => some ("u8_i64", .u8, .i64)
  | .u16, .i8 => some ("u16_i16", .u16, .i16)
  | .u16, .i16 => some ("u16_i16", .u16, .i16)
  | .u16, .i32 => some ("u16_i32", .u16, .i32)
  | .u16, .i64 => some ("u16_i64", .u16, .i64)
  | .u32, .i8 => some ("u32_i16", .u32, .i16)
  | .u32, .i16 => some ("u32_i16", .u32, .i16)
  | .u32, .i32 => some ("u32_i32", .u32, .i32)
  | .u32, .i64 => some ("u32_i64", .u32, .i64)
  | .u64, .i8 => some ("u64_i64", .u64, .i64)
  | .u64, .i16 => some ("u64_i64", .u64, .i64)
  | .u64, .i32 => some ("u64_i64", .u64, .i64)
  | .u64, .i64 => some ("u64_i64", .u64, .i64)
  | _, _ => none

/-- `_resolve_rust_fn(prefix, grp_dt, pos_dt)`: suffix-table lookup; a missing
key raises `TypeError("Unsupported dtype pair")`. -/
def resolve_rust_fn (grp_dt pos_dt : Dtype) :
    Except PyErr (String × Dtype × Dtype) :=
  match suffixTable grp_dt pos_dt with
  | some t => .ok t
  | none => .error (.typeError "Unsupported dtype pair")

/-- `_cast(a, target)` / `astype(target, copy=False)`: the dtype tag changes;
values are preserved (the library only casts values that fit the target). -/
def castArr (a : NDArr) (target : Dtype) : NDArr := ⟨target, a.data⟩

/-- `RETURN_SIGNATURES[prefix]`. -/
def return_signatures (pfx : String) : Option (List String) :=
  if pfx = "chromsweep_numpy" then some ["grp", "grp"]
  else if pfx = "nearest_numpy" then some ["grp", "grp", "pos"]
  else if pfx = "strand_numpy" then some ["grp", "grp", "strand"]
  else none

/-- The arguments a Rust kernel would be invoked with: the dispatcher's
output, in place of the FFI call itself (the Rust side is not part of this
repository's Python layer). -/
structure KernelCall where
  pfx : String
  g1 : NDArr
  s1 : NDArr
  e1 : NDArr
  g2 : NDArr
  s2 : NDArr
  e2 : NDArr
  posSlack : Int
  grpT : Dtype
  posT : Dtype
  grpOrig : Dtype
  posOrig : Dtype
  roles : List String
  deriving DecidableEq, Repr

/-- `_dispatch_binary(prefix, groups, starts, ends, groups2, starts2, ends2,
*extra_pos, **extra_kw)` up to (and excluding) the FFI call.  `posSlack` is a
slack value passed positionally in `*extra_pos` (as both `overlaps` and
`nearest` do); `kwSlack` is the value of `extra_kw["slack"]` when that key is
present — the source reads `extra_kw.get("slack", 0)` and runs the range check
only when that keyword value is nonzero, catching `ValueError` by falling back
to the original position dtype. -/
def dispatch_binary (pfx : String) (groups : Option NDArr)
    (starts ends : NDArr) (groups2 : Option NDArr) (starts2 ends2 : NDArr)
    (posSlack : Int) (kwSlack : Option Int) : Except PyErr KernelCall := do
  let length ← check_array_lengths starts ends groups
  let length2 ← check_array_lengths starts2 ends2 groups2
  let groupsV ← validate_groups length groups
  let groups2V ← validate_groups length2 groups2
  let grpOrig := groupsV.dtype
  let posOrig := starts.dtype
  let grpTmp ← common_integer_dtype2 groupsV groups2V
  let posTmp0 ← common_integer_dtype4 starts ends starts2 ends2
  let slack := kwSlack.getD 0
  let posTmp ← (if slack ≠ 0 then
      match check_min_max_with_slack starts.data ends.data slack posTmp0 with
      | .ok _ => pure posTmp0
      | .error (.valueError _) => pure posOrig
      | .error e => .error e
    else pure posTmp0)
  let r ← resolve_rust_fn grpTmp posTmp
  let grpT := r.2.1
  let posT := r.2.2
  let roles ← (match return_signatures pfx with
    | some rs => pure rs
    | none => .error (.keyError "RETURN_SIGNATURES"))
  let g1 ← (match groups with
    | some g => pure (castArr g grpT)
    | none => .error (.attributeError "NoneType object has no attribute astype"))
  let g2 ← (match groups2 with
    | some g => pure (castArr g grpT)
    | none => .error (.attributeError "NoneType object has no attribute astype"))
  pure {
    pfx := pfx
    g1 := g1
    s1 := castArr starts posT
    e1 := castArr ends posT
    g2 := g2
    s2 := castArr starts2 posT
    e2 := castArr ends2 posT
    posSlack := posSlack
    grpT := grpT
    posT := posT
    grpOrig := grpOrig
    posOrig := posOrig
    roles := roles }

/-- `overlaps(...)` up to the kernel call: slack is forwarded as a positional
argument, so `extra_kw` holds only `overlap_type` and `contained` and the
keyword-slack lookup inside `_dispatch_binary` sees no `"slack"` key. -/
def overlaps_dispatch (starts ends starts2 ends2 : NDArr)
    (groups groups2 : Option NDArr) (slack : Int) : Except PyErr KernelCall :=
  dispatch_binary "chromsweep_numpy" groups starts ends groups2 starts2 ends2
    slack none

/-- `nearest(...)` up to the kernel call: slack is likewise forwarded
positionally, so `extra_kw` holds only `k`, `include_overlaps`, `direction`. -/
def nearest_dispatch (starts ends starts2 ends2 : NDArr)
    (groups groups2 : Option NDArr) (slack : Int) : Except PyErr KernelCall :=
  dispatch_binary "nearest_numpy" groups starts ends groups2 starts2 ends2
    slack none

/-- `_restore(role, arr)` inside `cast_kernel_outputs`: a `grp`-role array
whose dtype equals the temporary group dtype is cast back to the caller's
group dtype; a `pos`-role array whose dtype equals the temporary position
dtype is cast back to the caller's position dtype; anything else is
returned unchanged. -/
def restore_one (grpT posT grpOrig posOrig : Dtype) (role : String)
    (arr : NDArr) : NDArr :=
  if role = "grp" ∧ arr.dtype = grpT then castArr arr grpOrig
  else if role = "pos" ∧ arr.dtype = posT then castArr arr posOrig
  else arr

/-- `cast_kernel_outputs(prefix, raw_out, roles, grp_t, pos_t, grp_orig,
pos_orig)`: single-output kernels must return exactly one array; multi-output
kernels must match the declared arity, and each output is restored per its
role. -/
def cast_kernel_outputs (raw : List NDArr) (roles : List String)
    (grpT posT grpOrig posOrig : Dtype) : Except PyErr (List NDArr) :=
  if roles.length = 1 then
    match raw with
    | [a] => .ok [restore_one grpT posT grpOrig posOrig (roles.headD "") a]
    | _ => .error (.typeError "should return one ndarray")
  else if raw.length ≠ roles.length then
    .error (.valueError "kernel returned wrong arity")
  else .ok (List.zipWith (restore_one grpT posT grpOrig posOrig) roles raw)

/-! ### Spec-modelled sweep kernels

The Rust sweep kernels (`chromsweep_numpy_*`, `nearest_numpy_*`) are not part
of the repository's Python source; they are modelled here from the spec's
contracts (§4.2 overlap sweep, §4.3 nearest sweep, §3 data model). -/

/-- An interval row of a batch: group id, start, end; the original index is
the row's position in the batch list. -/
structure Row where
  g : Int
  s : Int
  e : Int
  deriving DecidableEq, Repr

/-- Modelled from the spec: overlap predicate with slack `s ≥ 0` — intervals
`[s1,e1)` and `[s2,e2)` overlap iff `max(s1 - s, s2) < min(e1 + s, e2)`. -/
def overlapB (slack : Int) (a b : Row) : Bool :=
  max (a.s - slack) b.s < min (a.e + slack) b.e

/-- Modelled from the spec: containment — the B interval fully contains the
slack-padded A interval: `s2 <= s1 - s` and `e1 + s <= e2`. -/
def containsB (slack : Int) (a b : Row) : Bool :=
  b.s ≤ a.s - slack ∧ a.e + slack ≤ b.e

/-- Modelled from the spec: whether the overlap sweep emits the pair
`(i, j)` under `multiple="all"` — same group, overlap predicate holds, and
the containment predicate too when `contained` is set. -/
def emitted (slack : Int) (contained : Bool) (A B : List Row)
    (i j : Nat) : Bool :=
  match A.get? i, B.get? j with
  | some a, some b =>
      a.g = b.g ∧ overlapB slack a b ∧ (contained → containsB slack a b)
  | _, _ => false

/-- Modelled from the spec: the overlap kernel's output pair list under
`multiple="all"` — every qualifying `(i, j)` with `i` over batch A's original
indices and `j` over batch B's (the sweep algorithm is an optimization of
this contract; the repository's Python layer contains neither). -/
def overlapsAll (A B : List Row) (slack : Int) (contained : Bool) :
    List (Nat × Nat) :=
  (List.range A.length).flatMap fun i =>
    (List.range B.length).filterMap fun j =>
      if emitted slack contained A B i j then some (i, j) else none

/-- Direction policy of the nearest kernel. -/
inductive Direction where
  | forward | backward | any
  deriving DecidableEq, Repr

/-- Modelled from the spec: distance — 0 if the intervals overlap, otherwise
the gap between the closer endpoints: `max(0, s2 - e1)` when B is after A,
`max(0, s1 - e2)` when B is before A. -/
def nDist (a b : Row) : Int :=
  if max a.s b.s < min a.e b.e then 0
  else if a.e ≤ b.s then max 0 (b.s - a.e)
  else max 0 (a.s - b.e)

/-- Modelled from the spec: direction filter — `forward` keeps B intervals
starting at or after A's end, `backward` keeps B intervals ending at or
before A's start. -/
def dirOk : Direction → Row → Row → Bool
  | .forward, a, b => a.e ≤ b.s
  | .backward, a, b => b.e ≤ a.s
  | .any, _, _ => true

/-- Modelled from the spec: the qualifying candidate rows of batch B for one
query row `a` — same group, direction allowed, and overlapping rows dropped
when `include_overlaps=false`. -/
def nearestCands (B : List Row) (a : Row) (incl : Bool) (dir : Direction) :
    List (Nat × Row) :=
  (List.range B.length).filterMap fun j =>
    match B.get? j with
    | some b =>
        if a.g = b.g ∧ dirOk dir a b = true ∧
            (incl = true ∨ ¬ max a.s b.s < min a.e b.e) then
          some (j, b)
        else none
    | none => none

/-- Insertion of an element into a list ordered by `le`. -/
def insertBy {α : Type} (le : α → α → Bool) (x : α) : List α → List α
  | [] => [x]
  | y :: ys => if le x y then x :: y :: ys else y :: insertBy le x ys

/-- Stable insertion sort by `le`; orders the nearest kernel's candidates. -/
def sortBy {α : Type} (le : α → α → Bool) : List α → List α
  | [] => []
  | x :: xs => insertBy le x (sortBy le xs)

/-- Modelled from the spec: candidate order — increasing distance, ties by
smaller start, then smaller original index. -/
def candLE (a : Row) (x y : Nat × Row) : Bool :=
  if nDist a x.2 ≠ nDist a y.2 then nDist a x.2 < nDist a y.2
  else if x.2.s ≠ y.2.s then x.2.s < y.2.s
  else x.1 ≤ y.1

/-- Modelled from the spec: the nearest kernel's rows for one query row —
the `k` best candidates in the candidate order, as `(i, j, distance)`. -/
def nearestPerQuery (B : List Row) (k : Nat) (incl : Bool) (dir : Direction)
    (i : Nat) (a : Row) : List (Nat × Nat × Int) :=
  (((sortBy (candLE a) (nearestCands B a incl dir)).take k).map
    fun jb => (i, jb.1, nDist a jb.2))

/-- Modelled from the spec: the nearest kernel — per-query best-k rows,
concatenated in query order. -/
def nearestKernel (A B : List Row) (k : Nat) (incl : Bool)
    (dir : Direction) : List (Nat × Nat × Int) :=
  (List.range A.length).flatMap fun i =>
    match A.get? i with
    | some a => nearestPerQuery B k incl dir i a
    | none => []

/-- Zip three parallel columns into rows. -/
def mkRows : List Int → List Int → List Int → List Row
  | g :: gs, s :: ss, e :: es => ⟨g, s, e⟩ :: mkRows gs ss es
  | _, _, _ => []

/-- Modelled from the spec: the full `nearest` pipeline — dispatch, the
modelled kernel on the cast arrays (the kernel returns `uint32` index arrays
and a distance array in the kernel coordinate dtype `pos_t`), then
`cast_kernel_outputs`. -/
def nearest_full (starts ends starts2 ends2 : NDArr)
    (groups groups2 : Option NDArr) (slack : Int) (k : Nat) (incl : Bool)
    (dir : Direction) : Except PyErr (List NDArr) := do
  let call ← nearest_dispatch starts ends starts2 ends2 groups groups2 slack
  let A := mkRows call.g1.data call.s1.data call.e1.data
  let B := mkRows call.g2.data call.s2.data call.e2.data
  let out := nearestKernel A B k incl dir
  let idx1 : NDArr := ⟨.u32, out.map fun r => (r.1 : Int)⟩
  let idx2 : NDArr := ⟨.u32, out.map fun r => (r.2.1 : Int)⟩
  let dist : NDArr := ⟨call.posT, out.map fun r => r.2.2⟩
  cast_kernel_outputs [idx1, idx2, dist] call.roles call.grpT call.posT
    call.grpOrig call.posOrig

/-! ### Helper lemmas -/

theorem bind_ok {α β : Type} {x : Except PyErr α} {f : α → Except PyErr β}
    {b : β} : x >>= f = .ok b ↔ ∃ a, x = .ok a ∧ f a = .ok b := by
  cases x <;> simp [Except.bind, Bind.bind]

theorem length_insertBy {α : Type} (le : α → α → Bool) (x : α) :
    ∀ l : List α, (insertBy le x l).length = l.length + 1 := by
  intro l
  induction l with
  | nil => rfl
  | cons y ys ih =>
    rw [insertBy]
    split_ifs
    · rfl
    · simp only [List.length_cons, ih]

theorem mem_insertBy {α : Type} (le : α → α → Bool) (x a : α) :
    ∀ l : List α, a ∈ insertBy le x l ↔ a = x ∨ a ∈ l := by
  intro l
  induction l with
  | nil => simp [insertBy]
  | cons y ys ih =>
    rw [insertBy]
    split_ifs
    · simp
    · simp only [List.mem_cons, ih]
      tauto

theorem length_sortBy {α : Type} (le : α → α → Bool) :
    ∀ l : List α, (sortBy le l).length = l.length := by
  intro l
  induction l with
  | nil => rfl
  | cons x xs ih =>
    rw [sortBy, length_insertBy, ih]
    rfl

theorem mem_sortBy {α : Type} (le : α → α → Bool) (a : α) :
    ∀ l : List α, a ∈ sortBy le l ↔ a ∈ l := by
  intro l
  induction l with
  | nil => simp [sortBy]
  | cons x xs ih =>
    rw [sortBy, mem_insertBy]
    simp only [List.mem_cons, ih]

theorem emitted_get {slack : Int} {c : Bool} {A B : List Row} {i j : Nat}
    (h : emitted slack c A B i j = true) :
    ∃ a b, A.get? i = some a ∧ B.get? j = some b ∧
      a.g = b.g ∧ overlapB slack a b = true ∧
      (c = true → containsB slack a b = true) := by
  unfold emitted at h
  cases h1 : A.get? i with
  | none => rw [h1] at h; simp at h
  | some a =>
    cases h2 : B.get? j with
    | none => rw [h1, h2] at h; simp at h
    | some b =>
      rw [h1, h2] at h
      simp only [decide_eq_true_eq] at h
      exact ⟨a, b, rfl, rfl, h.1, by simpa [Dtype.dmin, Dtype.dmax] using h.2.1, fun hc => by
        simpa using h.2.2 (by simp [hc])⟩

theorem emitted_of_get {slack : Int} {c : Bool} {A B : List Row} {i j : Nat}
    {a b : Row} (h1 : A.get? i = some a) (h2 : B.get? j = some b)
    (hg : a.g = b.g) (hov : overlapB slack a b = true)
    (hc : c = true → containsB slack a b = true) :
    emitted slack c A B i j = true := by
  unfold emitted
  rw [h1, h2]
  simp only [decide_eq_true_eq]
  refine ⟨hg, by simpa [Dtype.dmin, Dtype.dmax] using hov, fun hcb => by simpa [Dtype.dmin, Dtype.dmax] using hc (by simpa [Dtype.dmin, Dtype.dmax] using hcb)⟩

theorem mem_overlapsAll {A B : List Row} {slack : Int} {c : Bool}
    {i j : Nat} :
    (i, j) ∈ overlapsAll A B slack c ↔ emitted slack c A B i j = true := by
  unfold overlapsAll
  simp only [List.mem_flatMap, List.mem_filterMap, List.mem_range]
  constructor
  · rintro ⟨i', _, j', _, hopt⟩
    by_cases he : emitted slack c A B i' j' = true
    · rw [if_pos he] at hopt
      cases hopt
      exact he
    · rw [if_neg he] at hopt
      exact absurd hopt (by simp)
  · intro he
    rcases emitted_get he with ⟨a, b, h1, h2, -, -, -⟩
    rcases List.get?_eq_some.mp h1 with ⟨hi, -⟩
    rcases List.get?_eq_some.mp h2 with ⟨hj, -⟩
    exact ⟨i, hi, j, hj, by rw [if_pos he]⟩

/-! ### Claim theorems: overlap kernel (spec-modelled) -/

/-- **C4**: for every pair of same-group intervals `[s1,e1)` (batch A) and
`[s2,e2)` (batch B) and every slack `s ≥ 0`, `overlaps` with
`multiple="all"` and `contained=false` emits the pair iff
`max(s1 - s, s2) < min(e1 + s, e2)`; consequently zero-length intervals
overlap nothing at slack 0. -/
theorem overlap_pair_iff_predicate (A B : List Row) (slack : Int)
    (hs : 0 ≤ slack) (i j : Nat) :
    ((i, j) ∈ overlapsAll A B slack false ↔
      ∃ a b, A.get? i = some a ∧ B.get? j = some b ∧ a.g = b.g ∧
        max (a.s - slack) b.s < min (a.e + slack) b.e)
    ∧ (∀ a, A.get? i = some a → a.s = a.e →
        (i, j) ∉ overlapsAll A B 0 false) := by
  constructor
  · rw [mem_overlapsAll]
    constructor
    · intro he
      rcases emitted_get he with ⟨a, b, h1, h2, hg, hov, -⟩
      exact ⟨a, b, h1, h2, hg, by simpa [overlapB] using hov⟩
    · rintro ⟨a, b, h1, h2, hg, hov⟩
      exact emitted_of_get h1 h2 hg (by simpa [overlapB] using hov)
        (fun hf => by cases hf)
  · intro a ha hae hmem
    rcases emitted_get (mem_overlapsAll.mp hmem) with ⟨a', b, h1, h2, -, hov, -⟩
    rw [ha] at h1
    cases h1
    simp only [overlapB, decide_eq_true_eq] at hov
    omega

theorem overlap_pair_iff_predicate_witness :
    (0, 0) ∈ overlapsAll [⟨0, 1, 5⟩] [⟨0, 3, 6⟩] 0 false :=
  ((overlap_pair_iff_predicate [⟨0, 1, 5⟩] [⟨0, 3, 6⟩] 0 (by norm_num) 0 0).1).mpr
    ⟨⟨0, 1, 5⟩, ⟨0, 3, 6⟩, rfl, rfl, rfl, by norm_num⟩

/-- **C5**: a pair with differing group ids is never emitted, even when the
coordinates overlap numerically; the concrete example A=[(1,5),(1,5)] with
groups [1,2] against B=[(3,6),(20,25)] with groups [1,2] yields exactly
idx1=[0], idx2=[0]. -/
theorem overlap_cross_group_excluded :
    (∀ (A B : List Row) (slack : Int) (c : Bool) (i j : Nat) (a b : Row),
        (i, j) ∈ overlapsAll A B slack c →
        A.get? i = some a → B.get? j = some b → a.g = b.g)
    ∧ overlapsAll [⟨1, 1, 5⟩, ⟨2, 1, 5⟩] [⟨1, 3, 6⟩, ⟨2, 20, 25⟩] 0 false
        = [(0, 0)] := by
  constructor
  · intro A B slack c i j a b hmem h1 h2
    rcases emitted_get (mem_overlapsAll.mp hmem) with ⟨a', b', h1', h2', hg, -, -⟩
    rw [h1] at h1'
    rw [h2] at h2'
    cases h1'
    cases h2'
    exact hg
  · decide

theorem overlap_cross_group_excluded_witness :
    (Row.mk 1 1 5).g = (Row.mk 1 3 6).g :=
  overlap_cross_group_excluded.1 [⟨1, 1, 5⟩, ⟨2, 1, 5⟩]
    [⟨1, 3, 6⟩, ⟨2, 20, 25⟩] 0 false 0 0 ⟨1, 1, 5⟩ ⟨1, 3, 6⟩
    (by decide) rfl rfl

/-- **C8**: slack monotonicity — for fixed batches and `multiple="all"`, the
pair set at slack `s1` is a subset of the pair set at slack `s2` whenever
`0 ≤ s1 ≤ s2`. -/
theorem overlap_slack_monotone (A B : List Row) (s1 s2 : Int)
    (h0 : 0 ≤ s1) (h12 : s1 ≤ s2) :
    ∀ p ∈ overlapsAll A B s1 false, p ∈ overlapsAll A B s2 false := by
  rintro ⟨i, j⟩ hp
  rw [mem_overlapsAll] at hp ⊢
  rcases emitted_get hp with ⟨a, b, h1, h2, hg, hov, -⟩
  refine emitted_of_get h1 h2 hg ?_ (fun hf => by cases hf)
  simp only [overlapB, decide_eq_true_eq] at hov ⊢
  omega

theorem overlap_slack_monotone_witness :
    (0, 0) ∈ overlapsAll [⟨0, 1, 5⟩] [⟨0, 3, 6⟩] 7 false :=
  overlap_slack_monotone [⟨0, 1, 5⟩] [⟨0, 3, 6⟩] 0 7 (by norm_num)
    (by norm_num) (0, 0) (by decide)

/-! ### Claim theorems: nearest kernel (spec-modelled) -/

theorem countP_flatMap_eq_zero {α β : Type} {l : List α} {f : α → List β}
    {p : β → Bool} (h : ∀ x ∈ l, (f x).countP p = 0) :
    (l.flatMap f).countP p = 0 := by
  induction l with
  | nil => simp
  | cons x xs ih =>
    rw [List.flatMap_cons, List.countP_append]
    rw [h x (List.mem_cons_self x xs), ih (fun y hy => h y (List.mem_cons_of_mem x hy))]

theorem countP_flatMap_le {α β : Type} [DecidableEq α] {l : List α}
    {f : α → List β} {p : β → Bool} (i : α) (hl : l.Nodup)
    (h : ∀ x ∈ l, x ≠ i → (f x).countP p = 0) :
    (l.flatMap f).countP p ≤ (f i).length := by
  induction l with
  | nil => simp
  | cons x xs ih =>
    rw [List.flatMap_cons, List.countP_append]
    rcases List.nodup_cons.mp hl with ⟨hx, hxs⟩
    by_cases hxi : x = i
    · subst hxi
      have hz : (xs.flatMap f).countP p = 0 :=
        countP_flatMap_eq_zero (fun y hy =>
          h y (List.mem_cons_of_mem x hy) (fun hyi => hx (hyi ▸ hy)))
      rw [hz]
      simpa using List.countP_le_length p
    · rw [h x (List.mem_cons_self x xs) hxi]
      simpa using ih hxs (fun y hy => h y (List.mem_cons_of_mem x hy))

theorem nearestPerQuery_fst {B : List Row} {k : Nat} {incl : Bool}
    {dir : Direction} {i : Nat} {a : Row} :
    ∀ r ∈ nearestPerQuery B k incl dir i a, r.1 = i := by
  intro r hr
  unfold nearestPerQuery at hr
  rcases List.mem_map.mp hr with ⟨jb, -, hjb⟩
  rw [← hjb]

theorem nearestPerQuery_length {B : List Row} {k : Nat} {incl : Bool}
    {dir : Direction} {i : Nat} {a : Row} :
    (nearestPerQuery B k incl dir i a).length
      = min k (nearestCands B a incl dir).length := by
  unfold nearestPerQuery
  rw [List.length_map, List.length_take, length_sortBy]

theorem mem_nearestCands {B : List Row} {a : Row} {incl : Bool}
    {dir : Direction} {j : Nat} {b : Row}
    (h : (j, b) ∈ nearestCands B a incl dir) :
    B.get? j = some b ∧ a.g = b.g ∧ dirOk dir a b = true := by
  unfold nearestCands at h
  simp only [List.mem_filterMap, List.mem_range] at h
  rcases h with ⟨j', -, hopt⟩
  cases hB : B.get? j' with
  | none => rw [hB] at hopt; simp at hopt
  | some b' =>
    rw [hB] at hopt
    dsimp only at hopt
    simp only [Option.ite_none_right_eq_some, Option.some.injEq] at hopt
    rcases hopt with ⟨⟨hg, hdir, -⟩, heq⟩
    cases heq
    exact ⟨hB, hg, hdir⟩

theorem mem_nearestPerQuery {B : List Row} {k : Nat} {incl : Bool}
    {dir : Direction} {i : Nat} {a : Row} {r : Nat × Nat × Int}
    (hr : r ∈ nearestPerQuery B k incl dir i a) :
    ∃ b, B.get? r.2.1 = some b ∧ r.2.2 = nDist a b ∧ r.1 = i := by
  unfold nearestPerQuery at hr
  rcases List.mem_map.mp hr with ⟨jb, hjb, heq⟩
  have hmem : jb ∈ nearestCands B a incl dir :=
    (mem_sortBy _ _ _).mp (List.take_subset k _ hjb)
  rcases mem_nearestCands (j := jb.1) (b := jb.2) (by simpa [Dtype.dmin, Dtype.dmax] using hmem) with
    ⟨hB, -, -⟩
  exact ⟨jb.2, by rw [← heq]; exact hB, by rw [← heq], by rw [← heq]⟩

/-- **C6**: the nearest kernel returns at most `k` rows per distinct `idx1`;
`k = 0` yields no rows at all; with fewer than `k` qualifying candidates it
returns only the candidates found (the per-query row count is bounded by the
candidate count), and every row is a genuine candidate (index into B with the
modelled distance), never sentinel padding. -/
theorem nearest_bounded_cardinality (A B : List Row) (k : Nat) (incl : Bool)
    (dir : Direction) :
    (∀ i : Nat, (nearestKernel A B k incl dir).countP (fun r => r.1 = i) ≤ k)
    ∧ nearestKernel A B 0 incl dir = []
    ∧ (∀ i a, A.get? i = some a →
        (nearestKernel A B k incl dir).countP (fun r => r.1 = i)
          ≤ (nearestCands B a incl dir).length)
    ∧ (∀ r ∈ nearestKernel A B k incl dir,
        ∃ a b, A.get? r.1 = some a ∧ B.get? r.2.1 = some b ∧
          r.2.2 = nDist a b) := by
  have hcount : ∀ i : Nat,
      (nearestKernel A B k incl dir).countP (fun r => r.1 = i)
        ≤ (match A.get? i with
           | some a => nearestPerQuery B k incl dir i a
           | none => []).length := by
    intro i
    unfold nearestKernel
    refine countP_flatMap_le i (List.nodup_range _) ?_
    intro x _ hxi
    rw [List.countP_eq_zero]
    intro r hrr
    cases hA : A.get? x with
    | none => rw [hA] at hrr; simp at hrr
    | some a =>
      rw [hA] at hrr
      have := nearestPerQuery_fst r hrr
      simp [this, hxi]
  refine ⟨?_, ?_, ?_, ?_⟩
  · intro i
    refine le_trans (hcount i) ?_
    cases hA : A.get? i with
    | none => simp
    | some a => rw [nearestPerQuery_length]; exact min_le_left _ _
  · unfold nearestKernel
    rw [List.flatMap_eq_nil_iff]
    intro x _
    cases A.get? x <;> rfl
  · intro i a hA
    refine le_trans (hcount i) ?_
    rw [hA, nearestPerQuery_length]
    exact min_le_right _ _
  · intro r hr
    unfold nearestKernel at hr
    rcases List.mem_flatMap.mp hr with ⟨i', -, hri⟩
    cases hA : A.get? i' with
    | none => rw [hA] at hri; simp at hri
    | some a =>
      rw [hA] at hri
      rcases mem_nearestPerQuery hri with ⟨b, hB, hd, hfst⟩
      exact ⟨a, b, by rw [hfst]; exact hA, hB, hd⟩

theorem nearest_bounded_cardinality_witness :
    ((nearestKernel [⟨0, 10, 20⟩] [⟨0, 0, 5⟩, ⟨0, 25, 30⟩] 1 true .any).countP
      (fun r => r.1 = 0) ≤ 1)
    ∧ nearestKernel [⟨0, 10, 20⟩] [⟨0, 0, 5⟩, ⟨0, 25, 30⟩] 0 true .any = [] :=
  ⟨(nearest_bounded_cardinality [⟨0, 10, 20⟩] [⟨0, 0, 5⟩, ⟨0, 25, 30⟩] 1
      true .any).1 0,
   (nearest_bounded_cardinality [⟨0, 10, 20⟩] [⟨0, 0, 5⟩, ⟨0, 25, 30⟩] 0
      true .any).2.1⟩

/-! ### Claim theorems: dtype narrowing and the slack range check -/

theorem foldl_min_mem : ∀ (l : List Int) (x : Int),
    l.foldl min x = x ∨ l.foldl min x ∈ l := by
  intro l
  induction l with
  | nil => intro x; left; rfl
  | cons y ys ih =>
    intro x
    rw [List.foldl_cons]
    rcases ih (min x y) with h | h
    · rcases min_choice x y with hc | hc
      · left; rw [h, hc]
      · right; rw [h, hc]; exact List.mem_cons_self y ys
    · right; exact List.mem_cons_of_mem y h

theorem foldl_max_mem : ∀ (l : List Int) (x : Int),
    l.foldl max x = x ∨ l.foldl max x ∈ l := by
  intro l
  induction l with
  | nil => intro x; left; rfl
  | cons y ys ih =>
    intro x
    rw [List.foldl_cons]
    rcases ih (max x y) with h | h
    · rcases max_choice x y with hc | hc
      · left; rw [h, hc]
      · right; rw [h, hc]; exact List.mem_cons_self y ys
    · right; exact List.mem_cons_of_mem y h

theorem arrMin_mem {l : List Int} (h : l ≠ []) : arrMin l ∈ l := by
  cases l with
  | nil => exact absurd rfl h
  | cons x r =>
    rcases foldl_min_mem r x with hm | hm
    · rw [arrMin, hm]; exact List.mem_cons_self x r
    · rw [arrMin]; exact List.mem_cons_of_mem x hm

theorem arrMax_mem {l : List Int} (h : l ≠ []) : arrMax l ∈ l := by
  cases l with
  | nil => exact absurd rfl h
  | cons x r =>
    rcases foldl_max_mem r x with hm | hm
    · rw [arrMax, hm]; exact List.mem_cons_self x r
    · rw [arrMax]; exact List.mem_cons_of_mem x hm

theorem unsigned_cases {d : Dtype} (h : d.isUnsigned = true) :
    d = .u8 ∨ d = .u16 ∨ d = .u32 ∨ d = .u64 := by
  cases d <;> first
    | exact Or.inl rfl
    | exact Or.inr (Or.inl rfl)
    | exact Or.inr (Or.inr (Or.inl rfl))
    | exact Or.inr (Or.inr (Or.inr rfl))
    | exact absurd h (by decide)

theorem signed_cases {d : Dtype} (h : d.isSigned = true) :
    d = .i8 ∨ d = .i16 ∨ d = .i32 ∨ d = .i64 := by
  cases d <;> first
    | exact Or.inl rfl
    | exact Or.inr (Or.inl rfl)
    | exact Or.inr (Or.inr (Or.inl rfl))
    | exact Or.inr (Or.inr (Or.inr rfl))
    | exact absurd h (by decide)

theorem not_integer_kinds {d : Dtype} (h : d.isInteger = false) :
    d.isSigned = false ∧ d.isUnsigned = false := by
  cases d <;> first
    | exact ⟨rfl, rfl⟩
    | exact absurd h (by decide)

/-- **C10**: for a non-empty integer-dtype array, `minimal_integer_dtype`
returns the narrowest dtype of the same signedness kind whose range contains
the array's minimum and maximum; an empty array keeps its own dtype; a
non-integer dtype raises `TypeError`. -/
theorem minimal_integer_dtype_spec (arr : NDArr) (hwf : arr.wf) :
    (arr.data = [] → minimal_integer_dtype arr = .ok arr.dtype)
    ∧ (arr.data ≠ [] → arr.dtype.isInteger = true →
        ∃ d, minimal_integer_dtype arr = .ok d
          ∧ d.isUnsigned = arr.dtype.isUnsigned
          ∧ d.isSigned = arr.dtype.isSigned
          ∧ d.dmin ≤ arrMin arr.data ∧ arrMax arr.data ≤ d.dmax
          ∧ (∀ d' : Dtype, d'.isUnsigned = arr.dtype.isUnsigned →
              d'.isSigned = arr.dtype.isSigned →
              d'.dmin ≤ arrMin arr.data → arrMax arr.data ≤ d'.dmax →
              d.width ≤ d'.width))
    ∧ (arr.data ≠ [] → arr.dtype.isInteger = false →
        minimal_integer_dtype arr
          = .error (.typeError "Input must use an integer dtype")) := by
  refine ⟨?_, ?_, ?_⟩
  · intro h
    simp [minimal_integer_dtype, h]
  · intro hne hint
    have hne' : arr.data.isEmpty = false := by
      simpa [List.isEmpty_iff] using hne
    have hminb := hwf _ (arrMin_mem hne)
    have hmaxb := hwf _ (arrMax_mem hne)
    by_cases hu : arr.dtype.isUnsigned = true
    · have hcase := unsigned_cases hu
      have hz : arr.dtype.dmin = 0 := by
        rcases hcase with h | h | h | h <;> rw [h] <;> rfl
      have hsEq : arr.dtype.isSigned = false := by
        rcases hcase with h | h | h | h <;> rw [h] <;> rfl
      have h0 : (0 : Int) ≤ arrMin arr.data := hz ▸ hminb.1
      have h64 : arrMax arr.data ≤ Dtype.dmax .u64 := by
        have hb : arr.dtype.dmax ≤ Dtype.dmax .u64 := by
          rcases hcase with h | h | h | h <;> rw [h] <;> decide
        exact le_trans hmaxb.2 hb
      have hfind : ∀ d : Dtype, arrMax arr.data ≤ d.dmax →
          minimal_integer_dtype arr
            = (match [Dtype.u8, .u16, .u32, .u64].find?
                (fun dt => decide (arrMax arr.data ≤ dt.dmax)) with
               | some dt => .ok dt
               | none => .error (.valueError "Values exceed 64-bit integer range")) := by
        intro _ _
        simp only [minimal_integer_dtype, hne', Bool.false_eq_true, if_false, hu,
          if_true]
      by_cases h8 : arrMax arr.data ≤ (255 : Int)
      · refine ⟨.u8, ?_, by (rw [hu]; rfl), by (rw [hsEq]; rfl), by simpa [Dtype.dmin, Dtype.dmax] using h0,
          by simpa [Dtype.dmin, Dtype.dmax] using h8, ?_⟩
        · rw [hfind _ h64, List.find?_cons_of_pos _ (by simpa [Dtype.dmin, Dtype.dmax] using h8)]
        · intro d' hu' _ _ _
          have hud : d'.isUnsigned = true := hu'.trans hu
          cases d' <;> first
            | decide
            | exact absurd hud (by decide)
      · by_cases h16 : arrMax arr.data ≤ (65535 : Int)
        · refine ⟨.u16, ?_, by (rw [hu]; rfl), by (rw [hsEq]; rfl), by simpa [Dtype.dmin, Dtype.dmax] using h0,
            by simpa [Dtype.dmin, Dtype.dmax] using h16, ?_⟩
          · rw [hfind _ h64, List.find?_cons_of_neg _ (by simpa [Dtype.dmin, Dtype.dmax] using h8),
              List.find?_cons_of_pos _ (by simpa [Dtype.dmin, Dtype.dmax] using h16)]
          · intro d' hu' _ _ hhi'
            have hud : d'.isUnsigned = true := hu'.trans hu
            cases d' <;> first
              | decide
              | exact absurd hud (by decide)
              | exact absurd (by simpa [Dtype.dmin, Dtype.dmax] using hhi') h8
        · by_cases h32 : arrMax arr.data ≤ (4294967295 : Int)
          · refine ⟨.u32, ?_, by (rw [hu]; rfl), by (rw [hsEq]; rfl), by simpa [Dtype.dmin, Dtype.dmax] using h0,
              by simpa [Dtype.dmin, Dtype.dmax] using h32, ?_⟩
            · rw [hfind _ h64, List.find?_cons_of_neg _ (by simpa [Dtype.dmin, Dtype.dmax] using h8),
                List.find?_cons_of_neg _ (by simpa [Dtype.dmin, Dtype.dmax] using h16),
                List.find?_cons_of_pos _ (by simpa [Dtype.dmin, Dtype.dmax] using h32)]
            · intro d' hu' _ _ hhi'
              have hud : d'.isUnsigned = true := hu'.trans hu
              cases d' <;> first
                | decide
                | exact absurd hud (by decide)
                | exact absurd (by simpa [Dtype.dmin, Dtype.dmax] using hhi') h8
                | exact absurd (by simpa [Dtype.dmin, Dtype.dmax] using hhi') h16
          · refine ⟨.u64, ?_, by (rw [hu]; rfl), by (rw [hsEq]; rfl), by simpa [Dtype.dmin, Dtype.dmax] using h0,
              by simpa [Dtype.dmin, Dtype.dmax] using h64, ?_⟩
            · rw [hfind _ h64, List.find?_cons_of_neg _ (by simpa [Dtype.dmin, Dtype.dmax] using h8),
                List.find?_cons_of_neg _ (by simpa [Dtype.dmin, Dtype.dmax] using h16),
                List.find?_cons_of_neg _ (by simpa [Dtype.dmin, Dtype.dmax] using h32),
                List.find?_cons_of_pos _ (by simpa [Dtype.dmin, Dtype.dmax] using h64)]
            · intro d' hu' _ _ hhi'
              have hud : d'.isUnsigned = true := hu'.trans hu
              cases d' <;> first
                | decide
                | exact absurd hud (by decide)
                | exact absurd (by simpa [Dtype.dmin, Dtype.dmax] using hhi') h8
                | exact absurd (by simpa [Dtype.dmin, Dtype.dmax] using hhi') h16
                | exact absurd (by simpa [Dtype.dmin, Dtype.dmax] using hhi') h32
    · have hs : arr.dtype.isSigned = true := by
        rcases (Bool.or_eq_true _ _).mp
            (by simpa [Dtype.isInteger] using hint) with h | h
        · exact h
        · exact absurd h hu
      have hcase := signed_cases hs
      have huEq : arr.dtype.isUnsigned = false := by
        rcases hcase with h | h | h | h <;> rw [h] <;> rfl
      have hlo64 : Dtype.dmin .i64 ≤ arrMin arr.data := by
        have hb : Dtype.dmin .i64 ≤ arr.dtype.dmin := by
          rcases hcase with h | h | h | h <;> rw [h] <;> decide
        exact le_trans hb hminb.1
      have hhi64 : arrMax arr.data ≤ Dtype.dmax .i64 := by
        have hb : arr.dtype.dmax ≤ Dtype.dmax .i64 := by
          rcases hcase with h | h | h | h <;> rw [h] <;> decide
        exact le_trans hmaxb.2 hb
      have hfind : minimal_integer_dtype arr
          = (match [Dtype.i8, .i16, .i32, .i64].find?
              (fun dt => decide (dt.dmin ≤ arrMin arr.data) &&
                decide (arrMax arr.data ≤ dt.dmax)) with
             | some dt => .ok dt
             | none => .error (.valueError "Values exceed 64-bit integer range")) := by
        simp only [minimal_integer_dtype, hne', Bool.false_eq_true, if_false, hu,
          hs, if_true]
      by_cases h8 : (-128 : Int) ≤ arrMin arr.data ∧ arrMax arr.data ≤ (127 : Int)
      · refine ⟨.i8, ?_, by (rw [huEq]; rfl), by (rw [hs]; rfl), by simpa [Dtype.dmin, Dtype.dmax] using h8.1,
          by simpa [Dtype.dmin, Dtype.dmax] using h8.2, ?_⟩
        · rw [hfind, List.find?_cons_of_pos _ (by simpa [Dtype.dmin, Dtype.dmax] using And.intro h8.1 h8.2)]
        · intro d' _ hs' _ _
          have hsd : d'.isSigned = true := hs'.trans hs
          cases d' <;> first
            | decide
            | exact absurd hsd (by decide)
      · by_cases h16 : (-32768 : Int) ≤ arrMin arr.data ∧
            arrMax arr.data ≤ (32767 : Int)
        · refine ⟨.i16, ?_, by (rw [huEq]; rfl), by (rw [hs]; rfl), by simpa [Dtype.dmin, Dtype.dmax] using h16.1,
            by simpa [Dtype.dmin, Dtype.dmax] using h16.2, ?_⟩
          · rw [hfind, List.find?_cons_of_neg _ (by simpa [Dtype.dmin, Dtype.dmax] using h8),
              List.find?_cons_of_pos _ (by simpa [Dtype.dmin, Dtype.dmax] using And.intro h16.1 h16.2)]
          · intro d' _ hs' hlo' hhi'
            have hsd : d'.isSigned = true := hs'.trans hs
            cases d' <;> first
              | decide
              | exact absurd hsd (by decide)
              | exact absurd ⟨by simpa [Dtype.dmin, Dtype.dmax] using hlo', by simpa [Dtype.dmin, Dtype.dmax] using hhi'⟩ h8
        · by_cases h32 : (-2147483648 : Int) ≤ arrMin arr.data ∧
              arrMax arr.data ≤ (2147483647 : Int)
          · refine ⟨.i32, ?_, by (rw [huEq]; rfl), by (rw [hs]; rfl), by simpa [Dtype.dmin, Dtype.dmax] using h32.1,
              by simpa [Dtype.dmin, Dtype.dmax] using h32.2, ?_⟩
            · rw [hfind, List.find?_cons_of_neg _ (by simpa [Dtype.dmin, Dtype.dmax] using h8),
                List.find?_cons_of_neg _ (by simpa [Dtype.dmin, Dtype.dmax] using h16),
                List.find?_cons_of_pos _ (by simpa [Dtype.dmin, Dtype.dmax] using And.intro h32.1 h32.2)]
            · intro d' _ hs' hlo' hhi'
              have hsd : d'.isSigned = true := hs'.trans hs
              cases d' <;> first
                | decide
                | exact absurd hsd (by decide)
                | exact absurd ⟨by simpa [Dtype.dmin, Dtype.dmax] using hlo', by simpa [Dtype.dmin, Dtype.dmax] using hhi'⟩ h8
                | exact absurd ⟨by simpa [Dtype.dmin, Dtype.dmax] using hlo', by simpa [Dtype.dmin, Dtype.dmax] using hhi'⟩ h16
          · refine ⟨.i64, ?_, by (rw [huEq]; rfl), by (rw [hs]; rfl), by simpa [Dtype.dmin, Dtype.dmax] using hlo64,
              by simpa [Dtype.dmin, Dtype.dmax] using hhi64, ?_⟩
            · rw [hfind, List.find?_cons_of_neg _ (by simpa [Dtype.dmin, Dtype.dmax] using h8),
                List.find?_cons_of_neg _ (by simpa [Dtype.dmin, Dtype.dmax] using h16),
                List.find?_cons_of_neg _ (by simpa [Dtype.dmin, Dtype.dmax] using h32),
                List.find?_cons_of_pos _ (by simpa [Dtype.dmin, Dtype.dmax] using And.intro hlo64 hhi64)]
            · intro d' _ hs' hlo' hhi'
              have hsd : d'.isSigned = true := hs'.trans hs
              cases d' <;> first
                | decide
                | exact absurd hsd (by decide)
                | exact absurd ⟨by simpa [Dtype.dmin, Dtype.dmax] using hlo', by simpa [Dtype.dmin, Dtype.dmax] using hhi'⟩ h8
                | exact absurd ⟨by simpa [Dtype.dmin, Dtype.dmax] using hlo', by simpa [Dtype.dmin, Dtype.dmax] using hhi'⟩ h16
                | exact absurd ⟨by simpa [Dtype.dmin, Dtype.dmax] using hlo', by simpa [Dtype.dmin, Dtype.dmax] using hhi'⟩ h32
  · intro hne hint
    have hne' : arr.data.isEmpty = false := by
      simpa [List.isEmpty_iff] using hne
    have hu : arr.dtype.isUnsigned = false := (not_integer_kinds hint).2
    have hs : arr.dtype.isSigned = false := (not_integer_kinds hint).1
    simp [minimal_integer_dtype, hne', hu, hs]

theorem minimal_integer_dtype_spec_witness :
    ∃ d, minimal_integer_dtype ⟨.i32, [1, 5]⟩ = .ok d
      ∧ d.isUnsigned = (Dtype.i32).isUnsigned
      ∧ d.isSigned = (Dtype.i32).isSigned
      ∧ d.dmin ≤ arrMin [1, 5] ∧ arrMax [1, 5] ≤ d.dmax
      ∧ (∀ d' : Dtype, d'.isUnsigned = (Dtype.i32).isUnsigned →
          d'.isSigned = (Dtype.i32).isSigned →
          d'.dmin ≤ arrMin [1, 5] → arrMax [1, 5] ≤ d'.dmax →
          d.width ≤ d'.width) :=
  (minimal_integer_dtype_spec ⟨.i32, [1, 5]⟩ (by decide)).2.1 (by decide) (by decide)

/-- **C9**: for non-empty inputs and a signed-integer or floating dtype,
`check_min_max_with_slack` raises `ValueError` iff `min(starts) - slack` is
below the dtype minimum or `max(ends) + slack` is above the dtype maximum; on
success it returns `None` (unit, not the boolean its docstring describes);
for any other dtype kind it raises `TypeError`. -/
theorem check_min_max_spec (starts ends : List Int) (slack : Int)
    (dt : Dtype) (hst : starts ≠ []) (hen : ends ≠ []) :
    ((dt.isSigned || dt.isFloat) = true →
      ((∃ msg, check_min_max_with_slack starts ends slack dt
          = .error (.valueError msg)) ↔
        (arrMin starts - slack < dt.dmin ∨ dt.dmax < arrMax ends + slack))
      ∧ (¬(arrMin starts - slack < dt.dmin ∨ dt.dmax < arrMax ends + slack) →
          check_min_max_with_slack starts ends slack dt = .ok ()))
    ∧ ((dt.isSigned || dt.isFloat) = false →
      ∃ msg, check_min_max_with_slack starts ends slack dt
        = .error (.typeError msg)) := by
  have hne : (starts.isEmpty || ends.isEmpty) = false := by
    simp [List.isEmpty_iff, hst, hen]
  constructor
  · intro hk
    constructor
    · constructor
      · rintro ⟨msg, hmsg⟩
        by_contra hnot
        push_neg at hnot
        have hok : check_min_max_with_slack starts ends slack dt = .ok () := by
          rw [check_min_max_with_slack, hne]
          simp only [Bool.false_eq_true, if_false, hk, if_true]
          rw [if_neg (not_lt.mpr hnot.1)]
          rw [if_neg (not_lt.mpr hnot.2)]
        rw [hok] at hmsg
        exact absurd hmsg (by simp)
      · intro hcond
        rw [check_min_max_with_slack, hne]
        simp only [Bool.false_eq_true, if_false, hk, if_true]
        rcases hcond with hlo | hhi
        · exact ⟨_, by rw [if_pos hlo]⟩
        · by_cases hlo : arrMin starts - slack < dt.dmin
          · exact ⟨_, by rw [if_pos hlo]⟩
          · exact ⟨_, by rw [if_neg hlo, if_pos hhi]⟩
    · intro hnot
      push_neg at hnot
      rw [check_min_max_with_slack, hne]
      simp only [Bool.false_eq_true, if_false, hk, if_true]
      rw [if_neg (not_lt.mpr hnot.1)]
      rw [if_neg (not_lt.mpr hnot.2)]
  · intro hk
    rw [check_min_max_with_slack, hne]
    simp only [Bool.false_eq_true, if_false, hk]
    exact ⟨_, rfl⟩

theorem check_min_max_spec_witness :
    (∃ msg, check_min_max_with_slack [0] [100] 50000 .i16
      = .error (.valueError msg))
    ∧ check_min_max_with_slack [0] [100] 7 .i16 = .ok () :=
  ⟨((check_min_max_spec [0] [100] 50000 .i16 (by decide) (by decide)).1
      (by decide)).1.mpr (by decide),
   ((check_min_max_spec [0] [100] 7 .i16 (by decide) (by decide)).1
      (by decide)).2 (by decide)⟩

/-! ### Helper lemmas for the dispatch layer -/

theorem ok_bind {α β : Type} (a : α) (f : α → Except PyErr β) :
    (Except.ok a >>= f) = f a := rfl

theorem error_bind {α β : Type} (e : PyErr) (f : α → Except PyErr β) :
    ((Except.error e : Except PyErr α) >>= f) = .error e := rfl

theorem minimal_ok_of_integer (arr : NDArr) (hwf : arr.wf)
    (hint : arr.dtype.isInteger = true) :
    ∃ d, minimal_integer_dtype arr = .ok d := by
  by_cases hemp : arr.data = []
  · exact ⟨arr.dtype, by simp [minimal_integer_dtype, hemp]⟩
  · have hne' : arr.data.isEmpty = false := by
      simpa [List.isEmpty_iff] using hemp
    have hminb := hwf _ (arrMin_mem hemp)
    have hmaxb := hwf _ (arrMax_mem hemp)
    by_cases hu : arr.dtype.isUnsigned = true
    · have h64 : arrMax arr.data ≤ Dtype.dmax .u64 := by
        have hb : arr.dtype.dmax ≤ Dtype.dmax .u64 := by
          rcases unsigned_cases hu with h | h | h | h <;> rw [h] <;> decide
        exact le_trans hmaxb.2 hb
      obtain ⟨y, hy⟩ : ∃ y, [Dtype.u8, .u16, .u32, .u64].find?
          (fun dt => decide (arrMax arr.data ≤ dt.dmax)) = some y := by
        rw [← Option.isSome_iff_exists, List.find?_isSome]
        exact ⟨.u64, by simp, by simpa [Dtype.dmax] using h64⟩
      exact ⟨y, by simp only [minimal_integer_dtype, hne', Bool.false_eq_true,
        if_false, hu, if_true, hy]⟩
    · have hs : arr.dtype.isSigned = true := by
        rcases (Bool.or_eq_true _ _).mp
            (by simpa [Dtype.isInteger] using hint) with h | h
        · exact h
        · exact absurd h hu
      have hlo64 : Dtype.dmin .i64 ≤ arrMin arr.data := by
        have hb : Dtype.dmin .i64 ≤ arr.dtype.dmin := by
          rcases signed_cases hs with h | h | h | h <;> rw [h] <;> decide
        exact le_trans hb hminb.1
      have hhi64 : arrMax arr.data ≤ Dtype.dmax .i64 := by
        have hb : arr.dtype.dmax ≤ Dtype.dmax .i64 := by
          rcases signed_cases hs with h | h | h | h <;> rw [h] <;> decide
        exact le_trans hmaxb.2 hb
      obtain ⟨y, hy⟩ : ∃ y, [Dtype.i8, .i16, .i32, .i64].find?
          (fun dt => decide (dt.dmin ≤ arrMin arr.data) &&
            decide (arrMax arr.data ≤ dt.dmax)) = some y := by
        rw [← Option.isSome_iff_exists, List.find?_isSome]
        exact ⟨.i64, by simp,
          by simpa [Dtype.dmin, Dtype.dmax] using And.intro hlo64 hhi64⟩
      exact ⟨y, by simp only [minimal_integer_dtype, hne', Bool.false_eq_true,
        if_false, hu, hs, if_true, hy]⟩

theorem minimal_cases (arr : NDArr) (hwf : arr.wf) :
    (∃ d, minimal_integer_dtype arr = .ok d) ∨
    (∃ msg, minimal_integer_dtype arr = .error (.typeError msg)) := by
  by_cases hint : arr.dtype.isInteger = true
  · exact Or.inl (minimal_ok_of_integer arr hwf hint)
  · by_cases hemp : arr.data = []
    · exact Or.inl ⟨arr.dtype, by simp [minimal_integer_dtype, hemp]⟩
    · right
      have hne' : arr.data.isEmpty = false := by
        simpa [List.isEmpty_iff] using hemp
      have hint' : arr.dtype.isInteger = false := by simpa using hint
      have hkinds := not_integer_kinds hint'
      exact ⟨"Input must use an integer dtype",
        by simp [minimal_integer_dtype, hne', hkinds.1, hkinds.2]⟩

theorem common4_cases (a b c d : NDArr) (ha : a.wf) (hb : b.wf)
    (hc : c.wf) (hd : d.wf) :
    (∃ p, common_integer_dtype4 a b c d = .ok p) ∨
    (∃ msg, common_integer_dtype4 a b c d = .error (.typeError msg)) := by
  rcases minimal_cases a ha with ⟨da, hda⟩ | ⟨m, hm⟩
  · rcases minimal_cases b hb with ⟨db, hdb⟩ | ⟨m, hm⟩
    · rcases minimal_cases c hc with ⟨dc, hdc⟩ | ⟨m, hm⟩
      · rcases minimal_cases d hd with ⟨dd, hdd⟩ | ⟨m, hm⟩
        · by_cases hr : (result_type2 (result_type2 (result_type2 da db) dc)
              dd).isInteger = true
          · exact Or.inl ⟨_, by
              simp only [common_integer_dtype4, hda, hdb, hdc, hdd, ok_bind,
                hr, if_true]
              rfl⟩
          · exact Or.inr ⟨_, by
              simp only [common_integer_dtype4, hda, hdb, hdc, hdd, ok_bind]
              rw [if_neg hr]⟩
        · exact Or.inr ⟨m, by
            simp only [common_integer_dtype4, hda, hdb, hdc, hm, ok_bind,
              error_bind]⟩
      · exact Or.inr ⟨m, by
          simp only [common_integer_dtype4, hda, hdb, hm, ok_bind, error_bind]⟩
    · exact Or.inr ⟨m, by
        simp only [common_integer_dtype4, hda, hm, ok_bind, error_bind]⟩
  · exact Or.inr ⟨m, by
      simp only [common_integer_dtype4, hm, error_bind]⟩

theorem minimal_zeros_i32 (n : Nat) :
    minimal_integer_dtype ⟨.i32, List.replicate n 0⟩
      = .ok (if n = 0 then Dtype.i32 else .i8) := by
  cases n with
  | zero => rfl
  | succ m =>
    have hfold : ∀ (k : Nat) (x : Int),
        (List.replicate k (0 : Int)).foldl min x = min x 0 ∨
        (List.replicate k (0 : Int)).foldl min x = x := by
      intro k
      induction k with
      | zero => intro x; right; rfl
      | succ j ih =>
        intro x
        rw [List.replicate_succ, List.foldl_cons]
        rcases ih (min x 0) with h | h
        · left; rw [h, min_assoc, min_self]
        · left; exact h
    have hfoldmax : ∀ (k : Nat) (x : Int),
        (List.replicate k (0 : Int)).foldl max x = max x 0 ∨
        (List.replicate k (0 : Int)).foldl max x = x := by
      intro k
      induction k with
      | zero => intro x; right; rfl
      | succ j ih =>
        intro x
        rw [List.replicate_succ, List.foldl_cons]
        rcases ih (max x 0) with h | h
        · left; rw [h, max_assoc, max_self]
        · left; exact h
    have hmin : arrMin (List.replicate (m + 1) (0 : Int)) = 0 := by
      rw [List.replicate_succ, arrMin]
      rcases hfold m 0 with h | h <;> rw [h] <;> simp
    have hmax : arrMax (List.replicate (m + 1) (0 : Int)) = 0 := by
      rw [List.replicate_succ, arrMax]
      rcases hfoldmax m 0 with h | h <;> rw [h] <;> simp
    have hne' : (List.replicate (m + 1) (0 : Int)).isEmpty = false := by
      simp [List.isEmpty_iff]
    simp only [minimal_integer_dtype, hne', Bool.false_eq_true, if_false,
      show Dtype.i32.isUnsigned = false from rfl,
      show Dtype.i32.isSigned = true from rfl, if_true, hmin, hmax]
    rw [List.find?_cons_of_pos _ (by simp [Dtype.dmin, Dtype.dmax])]
    simp

theorem grp_default_signed (n n2 : Nat) :
    ∃ dg, common_integer_dtype2 ⟨.i32, List.replicate n 0⟩
        ⟨.i32, List.replicate n2 0⟩ = .ok dg ∧ dg.isSigned = true := by
  refine ⟨result_type2 (if n = 0 then Dtype.i32 else .i8)
    (if n2 = 0 then Dtype.i32 else .i8), ?_, ?_⟩
  · have hsig : (result_type2 (if n = 0 then Dtype.i32 else .i8)
        (if n2 = 0 then Dtype.i32 else .i8)).isInteger = true := by
      by_cases h : n = 0 <;> by_cases h2 : n2 = 0 <;> simp [h, h2] <;> decide
    simp only [common_integer_dtype2, minimal_zeros_i32, ok_bind, hsig, if_true]
    rfl
  · by_cases h : n = 0 <;> by_cases h2 : n2 = 0 <;> simp [h, h2] <;> decide

theorem resolve_signed_grp {g : Dtype} (hg : g.isSigned = true) (p : Dtype) :
    resolve_rust_fn g p = .error (.typeError "Unsupported dtype pair") := by
  rcases signed_cases hg with h | h | h | h <;> rw [h] <;> cases p <;> rfl

theorem pure_eq_ok {α : Type} (a : α) : (pure a : Except PyErr α) = .ok a := rfl

/-- **C2**: with `groups=None` and `groups2=None` (the default), a length-valid
`overlaps` or `nearest` call raises `TypeError` before any kernel computation:
`validate_groups` fills signed int32 zeros, whose minimal integer dtype is
signed, while `_SUFFIX_TABLE` holds only unsigned group dtypes, so dispatch
fails (in `_resolve_rust_fn` with "Unsupported dtype pair", or already while
choosing a common coordinate dtype) — the groupless doctest result in the
`overlaps` docstring is never produced. -/
theorem groupless_call_raises_typeerror (pfx : String)
    (starts ends starts2 ends2 : NDArr) (ps : Int)
    (hw1 : starts.wf) (hw2 : ends.wf) (hw3 : starts2.wf) (hw4 : ends2.wf)
    (h1 : ends.data.length = starts.data.length)
    (h2 : ends2.data.length = starts2.data.length) :
    ∃ msg, dispatch_binary pfx none starts ends none starts2 ends2 ps none
      = .error (.typeError msg) := by
  have hc1 : check_array_lengths starts ends none = .ok starts.data.length := by
    simp [check_array_lengths, h1]
  have hc2 : check_array_lengths starts2 ends2 none
      = .ok starts2.data.length := by
    simp [check_array_lengths, h2]
  obtain ⟨dg, hdg, hdgs⟩ :=
    grp_default_signed starts.data.length starts2.data.length
  have hval1 : validate_groups starts.data.length none
      = .ok ⟨.i32, List.replicate starts.data.length 0⟩ := rfl
  have hval2 : validate_groups starts2.data.length none
      = .ok ⟨.i32, List.replicate starts2.data.length 0⟩ := rfl
  rcases common4_cases starts ends starts2 ends2 hw1 hw2 hw3 hw4 with
    ⟨p, hp⟩ | ⟨m, hp⟩
  · refine ⟨"Unsupported dtype pair", ?_⟩
    simp only [dispatch_binary, hc1, hc2, hval1, hval2, hdg, hp, ok_bind,
      Option.getD_none, pure_eq_ok]
    simp only [ne_eq, not_true_eq_false, if_false, ok_bind,
      resolve_signed_grp hdgs, error_bind]
  · refine ⟨m, ?_⟩
    simp only [dispatch_binary, hc1, hc2, hval1, hval2, hdg, hp, ok_bind,
      error_bind]

theorem groupless_call_raises_typeerror_witness :
    ∃ msg, dispatch_binary "chromsweep_numpy" none ⟨.i32, [1, 10]⟩
        ⟨.i32, [5, 15]⟩ none ⟨.i32, [3, 20]⟩ ⟨.i32, [6, 25]⟩ 0 none
      = .error (.typeError msg) :=
  groupless_call_raises_typeerror "chromsweep_numpy" ⟨.i32, [1, 10]⟩
    ⟨.i32, [5, 15]⟩ ⟨.i32, [3, 20]⟩ ⟨.i32, [6, 25]⟩ 0
    (by decide) (by decide) (by decide) (by decide) (by decide) (by decide)

theorem check_lengths_err {s e : NDArr} {g : Option NDArr}
    (h : e.data.length ≠ s.data.length ∨
      ∃ gg, g = some gg ∧ gg.data.length ≠ s.data.length) :
    ∃ m, check_array_lengths s e g = .error (.valueError m) := by
  by_cases he : e.data.length ≠ s.data.length
  · exact ⟨"`starts` and `ends` must have the same length.",
      by simp only [check_array_lengths, if_pos he]⟩
  · rcases h with h | ⟨gg, hgg, hg⟩
    · exact absurd h he
    · refine ⟨"`groups` must have the same length as `starts` and `ends`.", ?_⟩
      simp only [check_array_lengths, if_neg he, hgg]
      rw [if_pos hg]

theorem check_lengths_cases (s e : NDArr) (g : Option NDArr) :
    (∃ n, check_array_lengths s e g = .ok n) ∨
    (∃ m, check_array_lengths s e g = .error (.valueError m)) := by
  by_cases he : e.data.length ≠ s.data.length
  · exact Or.inr (check_lengths_err (Or.inl he))
  · cases hg : g with
    | none =>
      exact Or.inl ⟨s.data.length, by simp only [check_array_lengths, if_neg he]⟩
    | some gg =>
      by_cases hl : gg.data.length ≠ s.data.length
      · exact Or.inr (check_lengths_err (Or.inr ⟨gg, rfl, hl⟩))
      · refine Or.inl ⟨s.data.length, ?_⟩
        simp only [check_array_lengths, if_neg he]
        rw [if_neg hl]

theorem check_lengths_ok {s e : NDArr} {g : Option NDArr} {n : Nat}
    (h : check_array_lengths s e g = .ok n) :
    e.data.length = s.data.length ∧ n = s.data.length ∧
      ∀ gg, g = some gg → gg.data.length = s.data.length := by
  by_cases he : e.data.length ≠ s.data.length
  · simp only [check_array_lengths] at h
    rw [if_pos he] at h
    exact absurd h (by simp)
  · push_neg at he
    cases g with
    | none =>
      simp only [check_array_lengths] at h
      rw [if_neg (by omega)] at h
      refine ⟨he, ?_, by simp⟩
      cases h
      rfl
    | some gg =>
      simp only [check_array_lengths] at h
      rw [if_neg (by omega)] at h
      by_cases hl : gg.data.length ≠ s.data.length
      · rw [if_pos hl] at h
        exact absurd h (by simp)
      · rw [if_neg hl] at h
        push_neg at hl
        refine ⟨he, ?_, ?_⟩
        · cases h; rfl
        · intro g2 hg2
          cases hg2
          exact hl

theorem validate_groups_some (n : Nat) (g : NDArr) {v : NDArr}
    (h : validate_groups n (some g) = .ok v) : v = g := by
  simp only [validate_groups] at h
  by_cases hl : g.data.length ≠ n
  · rw [if_pos hl] at h
    exact absurd h (by simp)
  · rw [if_neg hl] at h
    cases h
    rfl

theorem dispatch_binary_ok {pfx : String} {groups groups2 : Option NDArr}
    {starts ends starts2 ends2 : NDArr} {ps : Int} {call : KernelCall}
    (h : dispatch_binary pfx groups starts ends groups2 starts2 ends2 ps none
      = .ok call) :
    ∃ gg gg2 grpT posT roles,
      groups = some gg ∧ groups2 = some gg2 ∧
      ends.data.length = starts.data.length ∧
      gg.data.length = starts.data.length ∧
      ends2.data.length = starts2.data.length ∧
      gg2.data.length = starts2.data.length ∧
      return_signatures pfx = some roles ∧
      call = { pfx := pfx, g1 := castArr gg grpT, s1 := castArr starts posT,
               e1 := castArr ends posT, g2 := castArr gg2 grpT,
               s2 := castArr starts2 posT, e2 := castArr ends2 posT,
               posSlack := ps, grpT := grpT, posT := posT,
               grpOrig := gg.dtype, posOrig := starts.dtype, roles := roles } := by
  rw [dispatch_binary] at h
  simp only [bind_ok, Option.getD_none, pure_eq_ok, ne_eq, not_true_eq_false,
    if_false, bind_ok] at h
  obtain ⟨n1, hn1, n2, hn2, gV, hgV, g2V, hg2V, grpTmp, hgrpTmp, posTmp,
    hposTmp, pTmp, hpTmp, rr, hrr, rolesV, hrolesV, g1v, hg1v, g2v, hg2v,
    hcall⟩ := h
  cases groups with
  | none => exact absurd hg1v (by simp)
  | some gg =>
    cases groups2 with
    | none => exact absurd hg2v (by simp)
    | some gg2 =>
      obtain ⟨hlen1, hn1', hgl1⟩ := check_lengths_ok hn1
      obtain ⟨hlen2, hn2', hgl2⟩ := check_lengths_ok hn2
      have hgVe : gV = gg := validate_groups_some _ _ hgV
      cases hrs : return_signatures pfx with
      | none => rw [hrs] at hrolesV; exact absurd hrolesV (by simp)
      | some rs =>
        rw [hrs] at hrolesV
        simp only [Option.some.injEq, Except.ok.injEq] at hrolesV hg1v hg2v hcall
        refine ⟨gg, gg2, rr.2.1, rr.2.2, rolesV, rfl, rfl, hlen1,
          hgl1 gg rfl, hlen2, hgl2 gg2 rfl, by rw [hrolesV], ?_⟩
        rw [← hcall, ← hg1v, ← hg2v, hgVe]

/-- **C7**: a length mismatch between `starts`/`ends`, `starts2`/`ends2`, or a
supplied groups array and its coordinate arrays makes the boundary layer raise
`ValueError` before the sweep kernel is invoked; consequently, whenever the
dispatcher does reach the kernel, the kernel receives length-matched arrays on
each side. -/
theorem length_validation (pfx : String) (groups groups2 : Option NDArr)
    (starts ends starts2 ends2 : NDArr) (ps : Int) :
    ((ends.data.length ≠ starts.data.length ∨
      ends2.data.length ≠ starts2.data.length ∨
      (∃ g, groups = some g ∧ g.data.length ≠ starts.data.length) ∨
      (∃ g2, groups2 = some g2 ∧ g2.data.length ≠ starts2.data.length)) →
      ∃ msg, dispatch_binary pfx groups starts ends groups2 starts2 ends2 ps
        none = .error (.valueError msg))
    ∧ (∀ call, dispatch_binary pfx groups starts ends groups2 starts2 ends2 ps
        none = .ok call →
        call.e1.data.length = call.s1.data.length ∧
        call.g1.data.length = call.s1.data.length ∧
        call.e2.data.length = call.s2.data.length ∧
        call.g2.data.length = call.s2.data.length) := by
  constructor
  · intro hmis
    have side1 : (ends.data.length ≠ starts.data.length ∨
        (∃ g, groups = some g ∧ g.data.length ≠ starts.data.length)) →
        ∃ msg, dispatch_binary pfx groups starts ends groups2 starts2 ends2 ps
          none = .error (.valueError msg) := by
      intro h
      obtain ⟨m, hm⟩ := check_lengths_err (s := starts) (e := ends) (g := groups) h
      exact ⟨m, by simp only [dispatch_binary, hm, error_bind]⟩
    rcases hmis with h | h | h | h
    · exact side1 (Or.inl h)
    · rcases check_lengths_cases starts ends groups with ⟨n, hn⟩ | ⟨m, hm⟩
      · obtain ⟨m2, hm2⟩ := check_lengths_err (s := starts2) (e := ends2) (g := groups2) (Or.inl h)
        exact ⟨m2, by simp only [dispatch_binary, hn, ok_bind, hm2, error_bind]⟩
      · exact ⟨m, by simp only [dispatch_binary, hm, error_bind]⟩
    · exact side1 (Or.inr h)
    · rcases check_lengths_cases starts ends groups with ⟨n, hn⟩ | ⟨m, hm⟩
      · obtain ⟨m2, hm2⟩ := check_lengths_err (s := starts2) (e := ends2) (g := groups2) (Or.inr h)
        exact ⟨m2, by simp only [dispatch_binary, hn, ok_bind, hm2, error_bind]⟩
      · exact ⟨m, by simp only [dispatch_binary, hm, error_bind]⟩
  · intro call hcall
    obtain ⟨gg, gg2, grpT, posT, roles, -, -, hlen1, hgl1, hlen2, hgl2, -,
      hrec⟩ := dispatch_binary_ok hcall
    rw [hrec]
    simp only [castArr]
    exact ⟨hlen1, hgl1, hlen2, hgl2⟩

theorem length_validation_witness :
    ∃ msg, dispatch_binary "chromsweep_numpy" (some ⟨.u32, [1]⟩) ⟨.i32, [1]⟩
        ⟨.i32, [5, 6]⟩ (some ⟨.u32, [1]⟩) ⟨.i32, [3]⟩ ⟨.i32, [6]⟩ 0 none
      = .error (.valueError msg) :=
  (length_validation "chromsweep_numpy" (some ⟨.u32, [1]⟩) (some ⟨.u32, [1]⟩)
      ⟨.i32, [1]⟩ ⟨.i32, [5, 6]⟩ ⟨.i32, [3]⟩ ⟨.i32, [6]⟩ 0).1
    (Or.inl (by decide))

theorem nDist_nonneg (a b : Row) : 0 ≤ nDist a b := by
  unfold nDist
  split_ifs with h1 h2
  · exact le_refl 0
  · exact le_max_left 0 _
  · exact le_max_left 0 _

theorem nearestKernel_dist_nonneg {A B : List Row} {k : Nat} {incl : Bool}
    {dir : Direction} : ∀ r ∈ nearestKernel A B k incl dir, 0 ≤ r.2.2 := by
  intro r hr
  unfold nearestKernel at hr
  rcases List.mem_flatMap.mp hr with ⟨i, -, hri⟩
  cases hA : A.get? i with
  | none => rw [hA] at hri; simp at hri
  | some a =>
    rw [hA] at hri
    rcases mem_nearestPerQuery hri with ⟨b, -, hd, -⟩
    rw [hd]
    exact nDist_nonneg a b

theorem restore_one_data (grpT posT grpOrig posOrig : Dtype) (role : String)
    (arr : NDArr) :
    (restore_one grpT posT grpOrig posOrig role arr).data = arr.data := by
  unfold restore_one
  split_ifs <;> rfl

/-- **C3** (amended): every successful `nearest` call yields three
equal-length arrays `idx1`, `idx2`, `distance`; the distances are
non-negative; and the distance array is returned in the caller's coordinate
dtype (`starts.dtype`) — int64 only when the caller supplied int64
coordinates, not unconditionally. -/
theorem nearest_output_shape (starts ends starts2 ends2 : NDArr)
    (groups groups2 : Option NDArr) (slack : Int) (k : Nat) (incl : Bool)
    (dir : Direction) (outs : List NDArr)
    (h : nearest_full starts ends starts2 ends2 groups groups2 slack k incl
      dir = .ok outs) :
    ∃ a1 a2 d, outs = [a1, a2, d]
      ∧ a1.data.length = a2.data.length ∧ a2.data.length = d.data.length
      ∧ (∀ v ∈ d.data, 0 ≤ v)
      ∧ d.dtype = starts.dtype := by
  rw [nearest_full] at h
  rw [bind_ok] at h
  obtain ⟨call, hcall, hrest⟩ := h
  obtain ⟨gg, gg2, grpT, posT, rolesV, -, -, -, -, -, -, hrs, hrec⟩ :=
    dispatch_binary_ok (hcall : dispatch_binary "nearest_numpy" groups starts
      ends groups2 starts2 ends2 slack none = .ok call)
  have hroles : rolesV = ["grp", "grp", "pos"] := by
    have : return_signatures "nearest_numpy" = some ["grp", "grp", "pos"] := rfl
    rw [this] at hrs
    exact (Option.some.injEq _ _ ▸ hrs).symm
  subst hrec
  subst hroles
  simp only [cast_kernel_outputs, List.length_cons, List.length_nil] at hrest
  rw [if_neg (by decide), if_neg (by decide)] at hrest
  simp only [List.zipWith, Except.ok.injEq] at hrest
  set out := nearestKernel
    (mkRows (castArr gg grpT).data (castArr starts posT).data
      (castArr ends posT).data)
    (mkRows (castArr gg2 grpT).data (castArr starts2 posT).data
      (castArr ends2 posT).data) k incl dir with hout
  refine ⟨_, _, _, hrest.symm, ?_, ?_, ?_, ?_⟩
  · rw [restore_one_data, restore_one_data]
    simp
  · rw [restore_one_data, restore_one_data]
    simp
  · intro v hv
    rw [restore_one_data] at hv
    simp only [List.mem_map] at hv
    obtain ⟨r, hr, hrv⟩ := hv
    rw [← hrv]
    exact nearestKernel_dist_nonneg r hr
  · have : restore_one grpT posT gg.dtype starts.dtype "pos"
        ⟨posT, out.map fun r => r.2.2⟩
        = ⟨starts.dtype, out.map fun r => r.2.2⟩ := by
      unfold restore_one
      rw [if_neg (by simp), if_pos (by simp)]
      rfl
    rw [this]

/-- **C3** counterexample to the claim as stated: a `nearest` call with int32
coordinates returns its distance array with dtype int32, not int64. -/
theorem nearest_distance_dtype_counterexample :
    nearest_full ⟨.i32, [1]⟩ ⟨.i32, [5]⟩ ⟨.i32, [10]⟩ ⟨.i32, [20]⟩
        (some ⟨.u32, [1]⟩) (some ⟨.u32, [1]⟩) 0 1 true .any
      = .ok [⟨.u32, [0]⟩, ⟨.u32, [0]⟩, ⟨.i32, [5]⟩]
    ∧ Dtype.i32 ≠ Dtype.i64 := by
  constructor
  · rfl
  · decide

theorem nearest_output_shape_witness :
    ∃ a1 a2 d, [(⟨.u32, [0]⟩ : NDArr), ⟨.u32, [0]⟩, ⟨.i32, [5]⟩] = [a1, a2, d]
      ∧ a1.data.length = a2.data.length ∧ a2.data.length = d.data.length
      ∧ (∀ v ∈ d.data, 0 ≤ v)
      ∧ d.dtype = (⟨.i32, [1]⟩ : NDArr).dtype :=
  nearest_output_shape ⟨.i32, [1]⟩ ⟨.i32, [5]⟩ ⟨.i32, [10]⟩ ⟨.i32, [20]⟩
    (some ⟨.u32, [1]⟩) (some ⟨.u32, [1]⟩) 0 1 true .any
    [⟨.u32, [0]⟩, ⟨.u32, [0]⟩, ⟨.i32, [5]⟩] (by rfl)

/-- **C1** (refuted — code bug): `overlaps` and `nearest` forward `slack` as a
positional argument while `_dispatch_binary` reads `extra_kw.get("slack", 0)`,
so the slack range check never runs.  At the concrete input below (int64
coordinates 0..100, slack 50000) the dispatcher down-casts the coordinates to
the int16 kernel and proceeds, although `max(ends) + slack` exceeds the int16
maximum — the kernel is invoked with an overflowing slack/coordinate
combination and no range-overflow error is ever reported, even though
`check_min_max_with_slack` itself would raise `ValueError` for this data at
the coordinate width used. -/
theorem slack_overflow_not_refused :
    overlaps_dispatch ⟨.i64, [0]⟩ ⟨.i64, [100]⟩ ⟨.i64, [0]⟩ ⟨.i64, [100]⟩
        (some ⟨.u32, [1]⟩) (some ⟨.u32, [1]⟩) 50000
      = .ok { pfx := "chromsweep_numpy", g1 := ⟨.u8, [1]⟩, s1 := ⟨.i16, [0]⟩,
              e1 := ⟨.i16, [100]⟩, g2 := ⟨.u8, [1]⟩, s2 := ⟨.i16, [0]⟩,
              e2 := ⟨.i16, [100]⟩, posSlack := 50000, grpT := .u8,
              posT := .i16, grpOrig := .u32, posOrig := .i64,
              roles := ["grp", "grp"] }
    ∧ Dtype.dmax .i16 < arrMax [(100 : Int)] + 50000
    ∧ (∃ msg, check_min_max_with_slack [0] [100] 50000 .i16
        = .error (.valueError msg)) := by
  refine ⟨by rfl, by decide, ?_⟩
  refine ⟨"Adjusted min is below the minimum for dtype. Please use a smaller slack to avoid an out of bounds error.", ?_⟩
  rfl

end Ruranges
